import Mathlib

/-!
Shallow embedding of the Horst bytecode virtual machine
(src/vm/{value,instruction,program,frame,mod}.rs) and proofs about it.

The Rust `Vec` operand stack and call-frame stack are modelled as Lean
lists with index 0 at the bottom and the top element at the end, so that
`Vec::push` is append, `Vec::pop` removes the last element, and Rust
indexing `v[i]` is `l[i]?`.  Panics (`panic!`, out-of-bounds indexing,
usize underflow) are modelled by `Option`: `none` is a fatal runtime
error.
-/

set_option maxHeartbeats 1000000

namespace Horst

/-- Models IEEE-754 binary64 (Rust `f64`) for the aspects the engine's
claims exercise: NaN, the infinities and their equality / comparison
semantics are exact; finite-value arithmetic is exact rational
arithmetic (rounding and the sign of zero are abstracted away — no
claim below depends on either). -/
inductive F64 where
  | finite : Rat → F64
  | nan : F64
  | inf : F64
  | negInf : F64
deriving DecidableEq, Repr

namespace F64

/-- Truncation toward zero, used by `F64.mod` (Rust `%` on `f64` keeps the
sign of the dividend). -/
def trunc (q : Rat) : Int :=
  if 0 ≤ q then q.floor else q.ceil

/-- Rust `PartialEq` on `f64`: IEEE equality.  NaN compares unequal to
everything, including itself. -/
def beq : F64 → F64 → Bool
  | finite a, finite b => a == b
  | inf, inf => true
  | negInf, negInf => true
  | _, _ => false

/-- IEEE `<`: every ordered comparison involving NaN is false. -/
def lt : F64 → F64 → Bool
  | nan, _ => false
  | _, nan => false
  | finite a, finite b => decide (a < b)
  | finite _, inf => true
  | finite _, negInf => false
  | inf, _ => false
  | negInf, negInf => false
  | negInf, _ => true

/-- IEEE `<=`: every ordered comparison involving NaN is false. -/
def le : F64 → F64 → Bool
  | nan, _ => false
  | _, nan => false
  | finite a, finite b => decide (a ≤ b)
  | finite _, inf => true
  | finite _, negInf => false
  | inf, inf => true
  | inf, _ => false
  | negInf, _ => true

/-- Rust `a > b` on `f64` (IEEE greater-than). -/
def gt (a b : F64) : Bool := lt b a

/-- Rust `a >= b` on `f64` (IEEE greater-or-equal). -/
def ge (a b : F64) : Bool := le b a

/-- IEEE unary negation. -/
def neg : F64 → F64
  | finite a => finite (-a)
  | nan => nan
  | inf => negInf
  | negInf => inf

/-- IEEE addition (finite results exact-rational, rounding abstracted). -/
def add : F64 → F64 → F64
  | nan, _ => nan
  | _, nan => nan
  | finite a, finite b => finite (a + b)
  | inf, negInf => nan
  | negInf, inf => nan
  | inf, _ => inf
  | _, inf => inf
  | negInf, _ => negInf
  | _, negInf => negInf

/-- IEEE subtraction (finite results exact-rational, rounding abstracted). -/
def sub : F64 → F64 → F64
  | nan, _ => nan
  | _, nan => nan
  | finite a, finite b => finite (a - b)
  | inf, inf => nan
  | negInf, negInf => nan
  | inf, _ => inf
  | negInf, _ => negInf
  | _, inf => negInf
  | _, negInf => inf

/-- IEEE multiplication (finite results exact-rational, rounding abstracted). -/
def mul : F64 → F64 → F64
  | nan, _ => nan
  | _, nan => nan
  | finite a, finite b => finite (a * b)
  | inf, finite b => if b = 0 then nan else if 0 < b then inf else negInf
  | finite a, inf => if a = 0 then nan else if 0 < a then inf else negInf
  | negInf, finite b => if b = 0 then nan else if 0 < b then negInf else inf
  | finite a, negInf => if a = 0 then nan else if 0 < a then negInf else inf
  | inf, inf => inf
  | inf, negInf => negInf
  | negInf, inf => negInf
  | negInf, negInf => inf

/-- IEEE division: never traps; x/0 gives ±∞ (NaN for 0/0). -/
def div : F64 → F64 → F64
  | nan, _ => nan
  | _, nan => nan
  | finite a, finite b =>
      if b = 0 then (if a = 0 then nan else if 0 < a then inf else negInf)
      else finite (a / b)
  | finite _, inf => finite 0
  | finite _, negInf => finite 0
  | inf, finite b => if 0 ≤ b then inf else negInf
  | negInf, finite b => if 0 ≤ b then negInf else inf
  | inf, inf => nan
  | inf, negInf => nan
  | negInf, inf => nan
  | negInf, negInf => nan

/-- Rust `%` on `f64` (`fmod`): remainder with the sign of the dividend;
x % 0 is NaN, never a trap. -/
def mod : F64 → F64 → F64
  | nan, _ => nan
  | _, nan => nan
  | finite a, finite b =>
      if b = 0 then nan else finite (a - b * ((trunc (a / b) : Int) : Rat))
  | finite a, inf => finite a
  | finite a, negInf => finite a
  | inf, _ => nan
  | negInf, _ => nan

end F64

/-- The opcode alphabet of `src/vm/instruction.rs`; operands are the
`usize` indices/offsets/addresses carried by the Rust enum. -/
inductive Instruction where
  | Add
  | Subtract
  | Multiply
  | Divide
  | Modulo
  | Equal
  | NotEqual
  | Greater
  | Less
  | GreaterEqual
  | LessEqual
  | Not
  | Negate
  | SetLocal : Nat → Instruction
  | GetLocal : Nat → Instruction
  | DefineGlobal : Nat → Instruction
  | SetGlobal : Nat → Instruction
  | GetGlobal : Nat → Instruction
  | Return
  | Call
  | Jump : Nat → Instruction
  | JumpIfFalse : Nat → Instruction
  | Constant : Nat → Instruction
  | Pop
  | Print
deriving DecidableEq, Repr

mutual

/-- The tagged runtime value of `src/vm/value.rs`. -/
inductive Value where
  | Number : F64 → Value
  | Boolean : Bool → Value
  | String : String → Value
  | Function : Function → Value
  | Null : Value

/-- A callable of `src/vm/value.rs`: a program plus an arity. -/
inductive Function where
  | mk : Program → Nat → Function

/-- The immutable instruction/constant bundle of `src/vm/program.rs`. -/
inductive Program where
  | mk : List Instruction → List Value → Program

end

/-- Field accessor for `Function.program`. -/
def Function.program : Function → Program
  | .mk p _ => p

/-- Field accessor for `Function.arity`. -/
def Function.arity : Function → Nat
  | .mk _ a => a

/-- Field accessor for `Program.instructions`. -/
def Program.instructions : Program → List Instruction
  | .mk i _ => i

/-- Field accessor for `Program.constants`. -/
def Program.constants : Program → List Value
  | .mk _ c => c

mutual

/-- Rust `#[derive(PartialEq)]` equality on `Value`: structural within a
variant, false across variants, and IEEE equality (`F64.beq`) on the
`Number` payload — so it is not reflexive on NaN. -/
def valueEq : Value → Value → Bool
  | .Number a, .Number b => F64.beq a b
  | .Boolean a, .Boolean b => a == b
  | .String a, .String b => a == b
  | .Function f, .Function g => fnEq f g
  | .Null, .Null => true
  | _, _ => false

/-- Derived `PartialEq` on `Function`. -/
def fnEq : Function → Function → Bool
  | .mk p a, .mk q b => progEq p q && a == b

/-- Derived `PartialEq` on `Program`. -/
def progEq : Program → Program → Bool
  | .mk is1 cs1, .mk is2 cs2 => is1 == is2 && listValueEq cs1 cs2

/-- Derived `PartialEq` on `Vec<Value>` (element-wise). -/
def listValueEq : List Value → List Value → Bool
  | [], [] => true
  | x :: xs, y :: ys => valueEq x y && listValueEq xs ys
  | _, _ => false

end

/-- `Value::is_falsey` of `src/vm/value.rs`, verbatim: `Null` is not
falsey, `Boolean(b)` is falsey iff `!b`, and every other variant falls
into the `_ => true` arm. -/
def Value.is_falsey : Value → Bool
  | .Null => false
  | .Boolean b => !b
  | _ => true

/-- A call frame of `src/vm/frame.rs`: callee, program counter, stack base. -/
structure CallFrame where
  function : Function
  ip : Nat
  base : Nat

/-- The engine state of `src/vm/mod.rs`.  Both `Vec`s keep their top at
the end of the list. -/
structure VM where
  frames : List CallFrame
  stack : List Value
  globals : List (Option Value)

/-- Rust `Vec::pop`: removes and returns the last element. -/
def vecPop {α : Type} (s : List α) : Option (α × List α) :=
  match s.reverse with
  | [] => none
  | v :: rest => some (v, rest.reverse)

namespace VM

/-- `VM::new`: one synthetic zero-arity bottom frame, empty stack, and
`global_count` empty global slots. -/
def new (program : Program) (global_count : Nat) : VM :=
  { frames := [{ function := .mk program 0, ip := 0, base := 0 }]
    stack := []
    globals := List.replicate global_count none }

/-- `VM::push`. -/
def push (vm : VM) (v : Value) : VM :=
  { vm with stack := vm.stack ++ [v] }

/-- `VM::pop`: `none` models the `panic!("Stack empty!")`. -/
def pop (vm : VM) : Option (Value × VM) :=
  match vecPop vm.stack with
  | some (v, s) => some (v, { vm with stack := s })
  | none => none

/-- Pop `n` times, discarding the values (the `for` loop in `fn_return`). -/
def popN (vm : VM) : Nat → Option VM
  | 0 => some vm
  | n + 1 =>
    match vm.pop with
    | some (_, vm1) => vm1.popN n
    | none => none

/-- `VM::frame`: the last (current) call frame; `none` models the
`panic!("Call stack empty!")`. -/
def frame (vm : VM) : Option CallFrame :=
  vm.frames.getLast?

/-- Overwrite the current frame's `ip` (Rust `self.frame_mut().ip = _`);
identity on an empty frame stack, which the dispatch loop never reaches. -/
def setTopIp (vm : VM) (ip : Nat) : VM :=
  match vecPop vm.frames with
  | some (f, fs) => { vm with frames := fs ++ [{ f with ip := ip }] }
  | none => vm

/-- `VM::jump_if_false`. -/
def jump_if_false (vm : VM) (pos : Nat) : Option VM :=
  match vm.pop with
  | some (v, vm1) => some (if v.is_falsey then vm1.setTopIp pos else vm1)
  | none => none

/-- `VM::get_global`: `none` models both the
`panic!("Cannot get undefined variable")` and an out-of-range index. -/
def get_global (vm : VM) (index : Nat) : Option VM :=
  match vm.globals[index]? with
  | some (some v) => some (vm.push v)
  | some none => none
  | none => none

/-- `VM::define_global`: store the popped value unconditionally; an
out-of-range index is a panic (`none`). -/
def define_global (vm : VM) (index : Nat) : Option VM :=
  if index < vm.globals.length then
    match vm.pop with
    | some (v, vm1) => some { vm1 with globals := vm1.globals.set index (some v) }
    | none => none
  else none

/-- `VM::set_global`: fatal when the slot is still empty (or the index is
out of range); otherwise pop and store. -/
def set_global (vm : VM) (index : Nat) : Option VM :=
  match vm.globals[index]? with
  | some (some _) =>
    match vm.pop with
    | some (v, vm1) => some { vm1 with globals := vm1.globals.set index (some v) }
    | none => none
  | some none => none
  | none => none

/-- `VM::fn_return`: pop the return value, pop `arity` further values,
push the return value back and pop the top frame. -/
def fn_return (vm : VM) : Option VM :=
  match vm.pop with
  | some (ret, vm1) =>
    match vm1.frame with
    | some f =>
      match vm1.popN f.function.arity with
      | some vm2 => some { vm2.push ret with frames := (vm2.push ret).frames.dropLast }
      | none => none
    | none => none
  | none => none

/-- `VM::call`: pop the callee, require a `Function`, and push a frame
with `base = stack.len() - arity` (the `usize` underflow that Rust would
hit when `arity` exceeds the remaining stack is modelled as a fatal
error). -/
def call (vm : VM) : Option VM :=
  match vm.pop with
  | some (.Function f, vm1) =>
    if f.arity ≤ vm1.stack.length then
      some { vm1 with
               frames := vm1.frames ++
                 [{ function := f, ip := 0, base := vm1.stack.length - f.arity }] }
    else none
  | some (_, _) => none
  | none => none

/-- `VM::set_local`: store the popped value at `stack[base + offset]`;
out-of-range is a panic (`none`). -/
def set_local (vm : VM) (offset : Nat) : Option VM :=
  match vm.frame with
  | some f =>
    match vm.pop with
    | some (v, vm1) =>
      if offset + f.base < vm1.stack.length then
        some { vm1 with stack := vm1.stack.set (offset + f.base) v }
      else none
    | none => none
  | none => none

/-- `VM::get_local`: push a copy of `stack[base + offset]`. -/
def get_local (vm : VM) (offset : Nat) : Option VM :=
  match vm.frame with
  | some f =>
    match vm.stack[offset + f.base]? with
    | some v => some (vm.push v)
    | none => none
  | none => none

/-- `VM::op_negate`. -/
def op_negate (vm : VM) : Option VM :=
  match vm.pop with
  | some (.Number n, vm1) => some (vm1.push (.Number (F64.neg n)))
  | some (_, _) => none
  | none => none

/-- `VM::op_not`. -/
def op_not (vm : VM) : Option VM :=
  match vm.pop with
  | some (v, vm1) => some (vm1.push (.Boolean v.is_falsey))
  | none => none

/-- `VM::op_equal`: `Boolean(self.pop() == self.pop())` — the first pop
yields the top of the stack. -/
def op_equal (vm : VM) : Option VM :=
  match vm.pop with
  | some (x, vm1) =>
    match vm1.pop with
    | some (y, vm2) => some (vm2.push (.Boolean (valueEq x y)))
    | none => none
  | none => none

/-- `VM::op_not_equal`: Rust `!=` is the negation of the derived `==`. -/
def op_not_equal (vm : VM) : Option VM :=
  match vm.pop with
  | some (x, vm1) =>
    match vm1.pop with
    | some (y, vm2) => some (vm2.push (.Boolean (!(valueEq x y))))
    | none => none
  | none => none

/-- The current frame's program (`VM::program`). -/
def program (vm : VM) : Option Program :=
  (vm.frame).map (fun f => f.function.program)

/-- `VM::push_constant`: push a clone of `constants[index]`. -/
def push_constant (vm : VM) (index : Nat) : Option VM :=
  match vm.program with
  | some p =>
    match p.constants[index]? with
    | some v => some (vm.push v)
    | none => none
  | none => none

/-- The `binary_op!` macro instantiated at `Value::Number`:
`b = pop(); a = pop()`; both must be numbers; push `Number(a ⊕ b)`. -/
def binary_num_op (vm : VM) (op : F64 → F64 → F64) : Option VM :=
  match vm.pop with
  | some (b, vm1) =>
    match vm1.pop with
    | some (a, vm2) =>
      match a, b with
      | .Number a, .Number b => some (vm2.push (.Number (op a b)))
      | _, _ => none
    | none => none
  | none => none

/-- The `binary_op!` macro instantiated at `Value::Boolean`:
`b = pop(); a = pop()`; both must be numbers; push `Boolean(a ⊕ b)`. -/
def binary_cmp_op (vm : VM) (op : F64 → F64 → Bool) : Option VM :=
  match vm.pop with
  | some (b, vm1) =>
    match vm1.pop with
    | some (a, vm2) =>
      match a, b with
      | .Number a, .Number b => some (vm2.push (.Boolean (op a b)))
      | _, _ => none
    | none => none
  | none => none

/-- One iteration of the `VM::run` dispatch loop body: fetch the current
instruction, pre-increment `ip`, and apply the handler.  `Print`'s side
effect on the host sink is dropped; its stack effect (one pop) is kept. -/
def step (vm : VM) : Option VM :=
  match vm.frame with
  | none => none
  | some f =>
    match f.function.program.instructions[f.ip]? with
    | none => none
    | some instr =>
      let vm1 := vm.setTopIp (f.ip + 1)
      match instr with
      | .Add => vm1.binary_num_op F64.add
      | .Subtract => vm1.binary_num_op F64.sub
      | .Multiply => vm1.binary_num_op F64.mul
      | .Divide => vm1.binary_num_op F64.div
      | .Modulo => vm1.binary_num_op F64.mod
      | .Equal => vm1.op_equal
      | .NotEqual => vm1.op_not_equal
      | .Greater => vm1.binary_cmp_op F64.gt
      | .Less => vm1.binary_cmp_op F64.lt
      | .GreaterEqual => vm1.binary_cmp_op F64.ge
      | .LessEqual => vm1.binary_cmp_op F64.le
      | .Not => vm1.op_not
      | .Negate => vm1.op_negate
      | .SetLocal index => vm1.set_local index
      | .GetLocal index => vm1.get_local index
      | .DefineGlobal index => vm1.define_global index
      | .SetGlobal index => vm1.set_global index
      | .GetGlobal index => vm1.get_global index
      | .Return => vm1.fn_return
      | .Call => vm1.call
      | .Jump pos => some (vm1.setTopIp pos)
      | .JumpIfFalse pos => vm1.jump_if_false pos
      | .Constant index => vm1.push_constant index
      | .Pop => (vm1.pop).map (fun vw => vw.2)
      | .Print => (vm1.pop).map (fun vw => vw.2)

/-- The `while` condition of `VM::run`: frames non-empty and the top
frame's `ip` still inside its program. -/
def running (vm : VM) : Bool :=
  match vm.frames.getLast? with
  | some f => f.ip < f.function.program.instructions.length
  | none => false

/-- The `VM::run` loop, fuel-indexed: `none` is a fatal runtime error or
fuel exhaustion; `some vm` is the halted final state left for
inspection. -/
def run (vm : VM) : Nat → Option VM
  | 0 => if vm.running then none else some vm
  | fuel + 1 =>
    if vm.running then
      match vm.step with
      | some vm1 => vm1.run fuel
      | none => none
    else some vm

end VM

/-- Bool test for the `Value::Number` variant. -/
def isNumber : Value → Bool
  | .Number _ => true
  | _ => false

/-- Bool test for the `Value::Function` variant. -/
def isFunctionValue : Value → Bool
  | .Function _ => true
  | _ => false

/-- A zero-arity callee whose body has no `Return` and simply falls off
the end (it pushes one constant and runs out of instructions). -/
def fallCallee : Function := .mk (.mk [.Constant 0] [.Number (.finite 1)]) 0

/-- A top-level program that calls `fallCallee`. -/
def fallOuter : Program := .mk [.Constant 0, .Call] [.Function fallCallee]

/-- A state whose single frame has already reached the end of its (empty)
program. -/
def haltedVM : VM :=
  { frames := [⟨.mk (.mk [] []) 0, 0, 0⟩], stack := [], globals := [] }

/-- `NaN == NaN` probe: push the same NaN constant twice, then `Equal`. -/
def nanEqProg : Program := .mk [.Constant 0, .Constant 0, .Equal] [.Number .nan]

/-- `NaN != NaN` probe: push the same NaN constant twice, then `NotEqual`. -/
def nanNeProg : Program := .mk [.Constant 0, .Constant 0, .NotEqual] [.Number .nan]

/-- Concrete state for the C3 witness: one argument below a unary callee. -/
def c3vm : VM :=
  { frames := [], stack := [.Null, .Function (.mk (.mk [] []) 1)], globals := [] }

/-- Concrete unary frame for the C4 witness. -/
def c4frame : CallFrame := ⟨.mk (.mk [] []) 1, 2, 0⟩

/-- Concrete state for the C4 witness: caller residue, one argument and a
return value on the stack, `c4frame` on top of the frame stack. -/
def c4vm : VM :=
  { frames := [c4frame], stack := [.Null, .Number .nan, .Boolean true], globals := [] }

/-- Concrete state for the C5 witness: two numbers on the stack. -/
def c5vm : VM :=
  { frames := [], stack := [.Number (.finite 1), .Number (.finite 2)], globals := [] }

/-- Concrete state for the C6 counterexample: global slot 0 is defined but
the operand stack is empty, so `SetGlobal 0` still dies (in `pop`). -/
def c6VM : VM :=
  { frames := [], stack := [], globals := [some (.Number (.finite 1))] }

/-- A program reaching the `c6VM` situation from `VM::new`: define global 0,
then execute `SetGlobal 0` with nothing left on the stack. -/
def c6Prog : Program :=
  .mk [.Constant 0, .DefineGlobal 0, .SetGlobal 0] [.Number (.finite 1)]

/-- Concrete state for the C6 witness: one defined global slot. -/
def c6wVM : VM :=
  { frames := [], stack := [.Boolean true], globals := [some .Null] }

/-- Concrete state for the C8 witness: a cross-variant pair on the stack. -/
def c8vm : VM :=
  { frames := [], stack := [.Null, .Boolean true], globals := [] }

/-- One-instruction program for the C9 witness. -/
def c9prog : Program := .mk [.Constant 0] [.Null]

/-- Initial engine for the C9 witness (three global slots). -/
def c9vm : VM := VM.new c9prog 3

/-- The state after one step of `c9vm`. -/
def c9vmNext : VM :=
  { frames := [⟨.mk c9prog 0, 1, 0⟩], stack := [.Null], globals := [none, none, none] }

/-- `Vec::pop` on a stack whose last element is exposed. -/
theorem vecPop_append {α : Type} (s : List α) (v : α) : vecPop (s ++ [v]) = some (v, s) := by
  simp [vecPop]

/-- `VM::pop` on a non-empty stack yields the top and the shortened stack. -/
theorem VM.pop_eq (vm : VM) (s : List Value) (v : Value) (h : vm.stack = s ++ [v]) :
    vm.pop = some (v, { vm with stack := s }) := by
  simp [VM.pop, h, vecPop_append]

/-- Popping twice removes the top two values, top first. -/
theorem VM.pop2_eq (vm : VM) (s0 : List Value) (x y : Value) (h : vm.stack = s0 ++ [x, y]) :
    vm.pop = some (y, { vm with stack := s0 ++ [x] }) ∧
    ({ vm with stack := s0 ++ [x] } : VM).pop = some (x, { vm with stack := s0 }) := by
  constructor
  · apply VM.pop_eq
    rw [h]
    simp
  · apply VM.pop_eq
    rfl

/-- `VM::push` on an explicit stack. -/
theorem VM.push_stack (vm : VM) (s : List Value) (v : Value) :
    ({ vm with stack := s } : VM).push v = { vm with stack := s ++ [v] } := rfl

/-- Popping `l.length` values from a stack ending in `l` strips exactly `l`. -/
theorem VM.popN_append : ∀ (l : List Value) (s : List Value) (vm : VM),
    vm.stack = s ++ l → vm.popN l.length = some { vm with stack := s } := by
  intro l
  induction l using List.reverseRecOn with
  | nil =>
    intro s vm h
    simp only [List.append_nil] at h
    subst h
    simp [VM.popN]
  | append_singleton l x ih =>
    intro s vm h
    have hlen : (l ++ [x]).length = l.length + 1 := by simp
    rw [hlen]
    have hpop : vm.pop = some (x, { vm with stack := s ++ l }) := by
      apply VM.pop_eq
      rw [h, List.append_assoc]
    simp only [VM.popN, hpop]
    exact ih s { vm with stack := s ++ l } rfl

/-- `Vec::last` of a stack with its final element exposed. -/
theorem getLast?_append_singleton {α : Type} (l : List α) (a : α) :
    (l ++ [a]).getLast? = some a := by
  simp [List.getLast?_concat]

/-- Dropping the final element of a stack with it exposed. -/
theorem dropLast_append_singleton {α : Type} (l : List α) (a : α) :
    (l ++ [a]).dropLast = l := by
  simp

/-- Successful `binary_op!` at `Value::Number`: consumes the two numbers
and pushes the numeric result. -/
theorem VM.binary_num_op_spec (vm : VM) (a b : F64) (s0 : List Value) (op : F64 → F64 → F64)
    (h : vm.stack = s0 ++ [Value.Number a, Value.Number b]) :
    vm.binary_num_op op = some { vm with stack := s0 ++ [Value.Number (op a b)] } := by
  obtain ⟨h1, h2⟩ := VM.pop2_eq vm s0 (.Number a) (.Number b) h
  simp only [VM.binary_num_op, h1, h2, VM.push_stack]

/-- Successful `binary_op!` at `Value::Boolean`: consumes the two numbers
and pushes the Boolean result. -/
theorem VM.binary_cmp_op_spec (vm : VM) (a b : F64) (s0 : List Value) (op : F64 → F64 → Bool)
    (h : vm.stack = s0 ++ [Value.Number a, Value.Number b]) :
    vm.binary_cmp_op op = some { vm with stack := s0 ++ [Value.Boolean (op a b)] } := by
  obtain ⟨h1, h2⟩ := VM.pop2_eq vm s0 (.Number a) (.Number b) h
  simp only [VM.binary_cmp_op, h1, h2, VM.push_stack]

/-- `binary_op!` at `Value::Number` is fatal when an operand is not a number. -/
theorem VM.binary_num_op_fatal (vm : VM) (v w : Value) (s0 : List Value) (op : F64 → F64 → F64)
    (h : vm.stack = s0 ++ [v, w]) (hvw : isNumber v = false ∨ isNumber w = false) :
    vm.binary_num_op op = none := by
  obtain ⟨h1, h2⟩ := VM.pop2_eq vm s0 v w h
  simp only [VM.binary_num_op, h1, h2]
  cases v <;> cases w <;> simp_all [isNumber]

/-- `binary_op!` at `Value::Boolean` is fatal when an operand is not a number. -/
theorem VM.binary_cmp_op_fatal (vm : VM) (v w : Value) (s0 : List Value) (op : F64 → F64 → Bool)
    (h : vm.stack = s0 ++ [v, w]) (hvw : isNumber v = false ∨ isNumber w = false) :
    vm.binary_cmp_op op = none := by
  obtain ⟨h1, h2⟩ := VM.pop2_eq vm s0 v w h
  simp only [VM.binary_cmp_op, h1, h2]
  cases v <;> cases w <;> simp_all [isNumber]

-- C9 machinery

theorem VM.push_globals (vm : VM) (v : Value) : (vm.push v).globals = vm.globals := rfl

theorem VM.pop_globals (vm vm' : VM) (v : Value) (h : vm.pop = some (v, vm')) :
    vm'.globals = vm.globals := by
  simp only [VM.pop] at h
  split at h
  · simp only [Option.some.injEq, Prod.mk.injEq] at h
    obtain ⟨-, h2⟩ := h
    subst h2
    rfl
  · exact Option.noConfusion h

theorem VM.popN_globals : ∀ (n : Nat) (vm vm' : VM), vm.popN n = some vm' →
    vm'.globals = vm.globals := by
  intro n
  induction n with
  | zero =>
    intro vm vm' h
    simp only [VM.popN, Option.some.injEq] at h
    subst h
    rfl
  | succ n ih =>
    intro vm vm' h
    simp only [VM.popN] at h
    split at h
    · rename_i v vm1 heq
      exact (ih vm1 vm' h).trans (VM.pop_globals vm vm1 v heq)
    · exact Option.noConfusion h

theorem VM.setTopIp_globals (vm : VM) (ip : Nat) : (vm.setTopIp ip).globals = vm.globals := by
  simp only [VM.setTopIp]
  split <;> rfl

theorem VM.popDiscard_globals (vm vm' : VM) (h : (vm.pop).map (fun vw => vw.2) = some vm') :
    vm'.globals = vm.globals := by
  cases hp : vm.pop with
  | none => rw [hp] at h; exact Option.noConfusion h
  | some vw =>
    rw [hp] at h
    simp at h
    subst h
    exact VM.pop_globals vm vw.2 vw.1 (by rw [hp])

theorem VM.jump_if_false_globals (vm vm' : VM) (pos : Nat) (h : vm.jump_if_false pos = some vm') :
    vm'.globals = vm.globals := by
  simp only [VM.jump_if_false] at h
  split at h
  · rename_i v vm1 heq
    simp only [Option.some.injEq] at h
    subst h
    have h1 := VM.pop_globals vm vm1 v heq
    split
    · rw [VM.setTopIp_globals, h1]
    · exact h1
  · exact Option.noConfusion h

theorem VM.get_global_globals (vm vm' : VM) (i : Nat) (h : vm.get_global i = some vm') :
    vm'.globals = vm.globals := by
  simp only [VM.get_global] at h
  split at h
  · simp only [Option.some.injEq] at h
    subst h
    rfl
  · exact Option.noConfusion h
  · exact Option.noConfusion h

theorem VM.define_global_globals_length (vm vm' : VM) (i : Nat)
    (h : vm.define_global i = some vm') : vm'.globals.length = vm.globals.length := by
  simp only [VM.define_global] at h
  split at h
  · split at h
    · rename_i v vm1 heq
      simp only [Option.some.injEq] at h
      subst h
      simp [List.length_set, VM.pop_globals vm vm1 v heq]
    · exact Option.noConfusion h
  · exact Option.noConfusion h

theorem VM.set_global_globals_length (vm vm' : VM) (i : Nat)
    (h : vm.set_global i = some vm') : vm'.globals.length = vm.globals.length := by
  simp only [VM.set_global] at h
  split at h
  · split at h
    · rename_i v vm1 heq
      simp only [Option.some.injEq] at h
      subst h
      simp [List.length_set, VM.pop_globals vm vm1 v heq]
    · exact Option.noConfusion h
  · exact Option.noConfusion h
  · exact Option.noConfusion h

theorem VM.fn_return_globals (vm vm' : VM) (h : vm.fn_return = some vm') :
    vm'.globals = vm.globals := by
  simp only [VM.fn_return] at h
  split at h
  · rename_i ret vm1 heq
    split at h
    · rename_i f hf
      split at h
      · rename_i vm2 hpn
        simp only [Option.some.injEq] at h
        subst h
        have := (VM.popN_globals _ vm1 vm2 hpn).trans (VM.pop_globals vm vm1 ret heq)
        simpa [VM.push] using this
      · exact Option.noConfusion h
    · exact Option.noConfusion h
  · exact Option.noConfusion h

theorem VM.call_globals (vm vm' : VM) (h : vm.call = some vm') :
    vm'.globals = vm.globals := by
  simp only [VM.call] at h
  split at h
  · rename_i f vm1 heq
    split at h
    · simp only [Option.some.injEq] at h
      subst h
      exact VM.pop_globals vm vm1 (.Function f) heq
    · exact Option.noConfusion h
  · exact Option.noConfusion h
  · exact Option.noConfusion h

theorem VM.set_local_globals (vm vm' : VM) (off : Nat) (h : vm.set_local off = some vm') :
    vm'.globals = vm.globals := by
  simp only [VM.set_local] at h
  split at h
  · split at h
    · rename_i f hf v vm1 heq
      split at h
      · simp only [Option.some.injEq] at h
        subst h
        exact VM.pop_globals vm vm1 v heq
      · exact Option.noConfusion h
    · exact Option.noConfusion h
  · exact Option.noConfusion h

theorem VM.get_local_globals (vm vm' : VM) (off : Nat) (h : vm.get_local off = some vm') :
    vm'.globals = vm.globals := by
  simp only [VM.get_local] at h
  split at h
  · split at h
    · simp only [Option.some.injEq] at h
      subst h
      rfl
    · exact Option.noConfusion h
  · exact Option.noConfusion h

theorem VM.op_negate_globals (vm vm' : VM) (h : vm.op_negate = some vm') :
    vm'.globals = vm.globals := by
  simp only [VM.op_negate] at h
  split at h
  · rename_i n vm1 heq
    simp only [Option.some.injEq] at h
    subst h
    exact VM.pop_globals vm vm1 (.Number n) heq
  · exact Option.noConfusion h
  · exact Option.noConfusion h

theorem VM.op_not_globals (vm vm' : VM) (h : vm.op_not = some vm') :
    vm'.globals = vm.globals := by
  simp only [VM.op_not] at h
  split at h
  · rename_i v vm1 heq
    simp only [Option.some.injEq] at h
    subst h
    exact VM.pop_globals vm vm1 v heq
  · exact Option.noConfusion h

theorem VM.op_equal_globals (vm vm' : VM) (h : vm.op_equal = some vm') :
    vm'.globals = vm.globals := by
  simp only [VM.op_equal] at h
  split at h
  · rename_i x vm1 heq1
    split at h
    · rename_i y vm2 heq2
      simp only [Option.some.injEq] at h
      subst h
      exact (VM.pop_globals vm1 vm2 y heq2).trans (VM.pop_globals vm vm1 x heq1)
    · exact Option.noConfusion h
  · exact Option.noConfusion h

theorem VM.op_not_equal_globals (vm vm' : VM) (h : vm.op_not_equal = some vm') :
    vm'.globals = vm.globals := by
  simp only [VM.op_not_equal] at h
  split at h
  · rename_i x vm1 heq1
    split at h
    · rename_i y vm2 heq2
      simp only [Option.some.injEq] at h
      subst h
      exact (VM.pop_globals vm1 vm2 y heq2).trans (VM.pop_globals vm vm1 x heq1)
    · exact Option.noConfusion h
  · exact Option.noConfusion h

theorem VM.push_constant_globals (vm vm' : VM) (i : Nat) (h : vm.push_constant i = some vm') :
    vm'.globals = vm.globals := by
  simp only [VM.push_constant] at h
  split at h
  · split at h
    · simp only [Option.some.injEq] at h
      subst h
      rfl
    · exact Option.noConfusion h
  · exact Option.noConfusion h

theorem VM.binary_num_op_globals (vm vm' : VM) (op : F64 → F64 → F64)
    (h : vm.binary_num_op op = some vm') : vm'.globals = vm.globals := by
  simp only [VM.binary_num_op] at h
  split at h
  · rename_i b vm1 heq1
    split at h
    · rename_i a vm2 heq2
      split at h
      · simp only [Option.some.injEq] at h
        subst h
        exact (VM.pop_globals vm1 vm2 _ heq2).trans (VM.pop_globals vm vm1 _ heq1)
      · exact Option.noConfusion h
    · exact Option.noConfusion h
  · exact Option.noConfusion h

theorem VM.binary_cmp_op_globals (vm vm' : VM) (op : F64 → F64 → Bool)
    (h : vm.binary_cmp_op op = some vm') : vm'.globals = vm.globals := by
  simp only [VM.binary_cmp_op] at h
  split at h
  · rename_i b vm1 heq1
    split at h
    · rename_i a vm2 heq2
      split at h
      · simp only [Option.some.injEq] at h
        subst h
        exact (VM.pop_globals vm1 vm2 _ heq2).trans (VM.pop_globals vm vm1 _ heq1)
      · exact Option.noConfusion h
    · exact Option.noConfusion h
  · exact Option.noConfusion h

theorem VM.step_preserves_globals_length (vm vm' : VM) (h : vm.step = some vm') :
    vm'.globals.length = vm.globals.length := by
  simp only [VM.step] at h
  split at h
  · exact Option.noConfusion h
  · rename_i f hf
    split at h
    · exact Option.noConfusion h
    · rename_i instr hi
      have hst : (vm.setTopIp (f.ip + 1)).globals = vm.globals := VM.setTopIp_globals vm _
      split at h <;>
        first
        | (rw [← hst]; exact congrArg List.length (VM.binary_num_op_globals _ _ _ h))
        | (rw [← hst]; exact congrArg List.length (VM.binary_cmp_op_globals _ _ _ h))
        | (rw [← hst]; exact congrArg List.length (VM.op_equal_globals _ _ h))
        | (rw [← hst]; exact congrArg List.length (VM.op_not_equal_globals _ _ h))
        | (rw [← hst]; exact congrArg List.length (VM.op_not_globals _ _ h))
        | (rw [← hst]; exact congrArg List.length (VM.op_negate_globals _ _ h))
        | (rw [← hst]; exact congrArg List.length (VM.set_local_globals _ _ _ h))
        | (rw [← hst]; exact congrArg List.length (VM.get_local_globals _ _ _ h))
        | (rw [← hst]; exact VM.define_global_globals_length _ _ _ h)
        | (rw [← hst]; exact VM.set_global_globals_length _ _ _ h)
        | (rw [← hst]; exact congrArg List.length (VM.get_global_globals _ _ _ h))
        | (rw [← hst]; exact congrArg List.length (VM.fn_return_globals _ _ h))
        | (rw [← hst]; exact congrArg List.length (VM.call_globals _ _ h))
        | (simp only [Option.some.injEq] at h; subst h;
           rw [VM.setTopIp_globals, VM.setTopIp_globals])
        | (rw [← hst]; exact congrArg List.length (VM.jump_if_false_globals _ _ _ h))
        | (rw [← hst]; exact congrArg List.length (VM.push_constant_globals _ _ _ h))
        | (rw [← hst]; exact congrArg List.length (VM.popDiscard_globals _ _ h))

theorem VM.run_preserves_globals_length : ∀ (n : Nat) (vm vm' : VM),
    vm.run n = some vm' → vm'.globals.length = vm.globals.length := by
  intro n
  induction n with
  | zero =>
    intro vm vm' h
    simp only [VM.run] at h
    split at h
    · exact Option.noConfusion h
    · simp only [Option.some.injEq] at h
      subst h
      rfl
  | succ n ih =>
    intro vm vm' h
    simp only [VM.run] at h
    split at h
    · split at h
      · rename_i vm1 heq
        exact (ih vm1 vm' h).trans (VM.step_preserves_globals_length vm vm1 heq)
      · exact Option.noConfusion h
    · simp only [Option.some.injEq] at h
      subst h
      rfl

/-- C1 counterexample: in the execution of `fallOuter` the nested callee
`fallCallee` reaches the end of its instruction list without executing
`Return`, yet after the run the frame stack still holds 2 frames — the
callee frame was not removed, contradicting the claim that the engine
pops it (had it been popped, at most 1 frame could remain). -/
theorem C1_counterexample :
    ((VM.new fallOuter 0).run 20).map (fun vm => vm.frames.length) = some 2 ∧
    ¬ ((VM.new fallOuter 0).run 20).map (fun vm => vm.frames.length) = some 1 ∧
    ((VM.new fallOuter 0).run 20).map (fun vm => vm.stack.length) = some 1 := by
  refine ⟨by decide, by decide, by decide⟩

/-- C1 (amended): when the top frame's `ip` has reached the end of its
program's instruction list, the `run` loop exits with the engine state
unchanged — the frame is not popped (a nested callee's frame stays on the
frame stack) and no implicit return value is pushed. -/
theorem C1_frame_not_popped_on_ip_end (vm : VM) (f : CallFrame) (n : Nat)
    (hf : vm.frames.getLast? = some f)
    (hip : f.function.program.instructions.length ≤ f.ip) :
    vm.run n = some vm := by
  have hrun : vm.running = false := by
    simp only [VM.running, hf]
    simp
    omega
  cases n with
  | zero => simp [VM.run, hrun]
  | succ n => simp [VM.run, hrun]

/-- Witness for C1: `haltedVM`'s only frame has `ip` at the end of its
program, and running it for 5 steps leaves the state untouched. -/
theorem C1_witness :
    haltedVM.frames.getLast? = some ⟨.mk (.mk [] []) 0, 0, 0⟩ ∧
    haltedVM.run 5 = some haltedVM :=
  ⟨rfl, C1_frame_not_popped_on_ip_end haltedVM ⟨.mk (.mk [] []) 0, 0, 0⟩ 5 rfl (by decide)⟩

/-- C2 counterexample: `is_falsey(Number(1))` returns `true`, not `false`
as the claim asserts. -/
theorem C2_counterexample :
    Value.is_falsey (.Number (.finite 1)) = true ∧
    ¬ Value.is_falsey (.Number (.finite 1)) = false :=
  ⟨rfl, by decide⟩

/-- C2 (amended): for every value of variant `Number`, `String` or
`Function`, `is_falsey` returns `true` — these variants ARE falsey under
the code's `_ => true` arm; only `Null` and `Boolean(true)` are truthy. -/
theorem C2_number_string_function_falsey :
    (∀ n : F64, Value.is_falsey (.Number n) = true) ∧
    (∀ s : String, Value.is_falsey (.String s) = true) ∧
    (∀ f : Function, Value.is_falsey (.Function f) = true) :=
  ⟨fun _ => rfl, fun _ => rfl, fun _ => rfl⟩

/-- C3: on a stack `[…, arg1, …, argN, callee]` with `callee` a function of
arity `N`, `Call` pops only the callee, pushes a frame with `ip = 0` and
`base = |stack| − arity` computed after the pop (here `s0.length`), and
the `N` arguments stay on the stack as locals `0..arity-1` of the new
frame; popping a non-function is fatal. -/
theorem C3_call_semantics (vm : VM) (s0 args : List Value) (fn : Function)
    (hstack : vm.stack = s0 ++ args ++ [Value.Function fn])
    (hlen : args.length = fn.arity) :
    vm.call = some { vm with stack := s0 ++ args,
                             frames := vm.frames ++ [⟨fn, 0, s0.length⟩] } ∧
    (∀ j, j < fn.arity → (s0 ++ args)[s0.length + j]? = args[j]?) ∧
    (∀ (w : VM) (s1 : List Value) (v : Value),
        w.stack = s1 ++ [v] → isFunctionValue v = false → w.call = none) := by
  refine ⟨?_, ?_, ?_⟩
  · have h1 : vm.pop = some (Value.Function fn, { vm with stack := s0 ++ args }) := by
      apply VM.pop_eq
      rw [hstack, List.append_assoc]
    have hle : fn.arity ≤ (s0 ++ args).length := by
      rw [← hlen, List.length_append]
      omega
    have hbase : (s0 ++ args).length - fn.arity = s0.length := by
      rw [← hlen, List.length_append]
      omega
    simp only [VM.call, h1, hle, if_pos, hbase]
  · intro j hj
    rw [List.getElem?_append_right (by omega)]
    congr 1
    omega
  · intro w s1 v hw hv
    have h1 : w.pop = some (v, { w with stack := s1 }) := VM.pop_eq w s1 v hw
    cases v <;> simp_all [VM.call, isFunctionValue]

/-- Witness for C3: calling the unary function on `c3vm` frames the single
argument with `base = 0`. -/
theorem C3_witness :
    c3vm.stack = [] ++ [Value.Null] ++ [Value.Function (.mk (.mk [] []) 1)] ∧
    ([Value.Null] : List Value).length = (Function.mk (.mk [] []) 1).arity ∧
    c3vm.call = some { c3vm with stack := [Value.Null],
                                 frames := [⟨.mk (.mk [] []) 1, 0, 0⟩] } :=
  ⟨rfl, rfl, (C3_call_semantics c3vm [] [Value.Null] (.mk (.mk [] []) 1) rfl rfl).1⟩

/-- C4: with a frame of arity `k` on top and `k + 1` values available,
`Return` pops the return value, pops exactly `k` further values, pushes
the return value back and pops the top frame, so the caller's stack is
its pre-argument prefix plus the returned value on top. -/
theorem C4_return_semantics (vm : VM) (fs : List CallFrame) (f : CallFrame)
    (s0 args : List Value) (ret : Value)
    (hframes : vm.frames = fs ++ [f])
    (hlen : args.length = f.function.arity)
    (hstack : vm.stack = s0 ++ args ++ [ret]) :
    vm.fn_return = some { vm with stack := s0 ++ [ret], frames := fs } ∧
    (s0 ++ [ret]).length = s0.length + 1 := by
  constructor
  · have h1 : vm.pop = some (ret, { vm with stack := s0 ++ args }) := by
      apply VM.pop_eq
      rw [hstack, List.append_assoc]
    have h2 : ({ vm with stack := s0 ++ args } : VM).frame = some f := by
      simp [VM.frame, hframes, getLast?_append_singleton]
    have h3 : ({ vm with stack := s0 ++ args } : VM).popN f.function.arity =
        some { vm with stack := s0 } := by
      rw [← hlen]
      exact VM.popN_append args s0 _ rfl
    simp only [VM.fn_return, h1, h2, h3, VM.push_stack]
    simp [hframes, dropLast_append_singleton]
  · simp

/-- Witness for C4: returning from `c4frame` (arity 1) on `c4vm` discards
the argument and leaves the returned Boolean on the caller's stack. -/
theorem C4_witness :
    c4vm.frames = [] ++ [c4frame] ∧
    ([Value.Number F64.nan] : List Value).length = c4frame.function.arity ∧
    c4vm.fn_return = some { c4vm with stack := [Value.Null, Value.Boolean true],
                                      frames := [] } :=
  ⟨rfl, rfl,
   (C4_return_semantics c4vm [] c4frame [Value.Null] [Value.Number F64.nan]
     (Value.Boolean true) rfl rfl rfl).1⟩

/-- C5: each of `Add`, `Subtract`, `Multiply`, `Divide`, `Modulo` pops `b`
then `a`, requires both to be numbers (fatal otherwise), and pushes
`Number (a ⊕ b)` with `b` taken from the top of the stack; `Greater`,
`Less`, `GreaterEqual`, `LessEqual` follow the same pop order and number
requirement but push `Boolean (a ⊕ b)`. -/
theorem C5_binary_op_semantics (vm : VM) (a b : F64) (s0 : List Value)
    (hstack : vm.stack = s0 ++ [Value.Number a, Value.Number b]) :
    (vm.binary_num_op F64.add = some { vm with stack := s0 ++ [Value.Number (F64.add a b)] }) ∧
    (vm.binary_num_op F64.sub = some { vm with stack := s0 ++ [Value.Number (F64.sub a b)] }) ∧
    (vm.binary_num_op F64.mul = some { vm with stack := s0 ++ [Value.Number (F64.mul a b)] }) ∧
    (vm.binary_num_op F64.div = some { vm with stack := s0 ++ [Value.Number (F64.div a b)] }) ∧
    (vm.binary_num_op F64.mod = some { vm with stack := s0 ++ [Value.Number (F64.mod a b)] }) ∧
    (vm.binary_cmp_op F64.gt = some { vm with stack := s0 ++ [Value.Boolean (F64.gt a b)] }) ∧
    (vm.binary_cmp_op F64.lt = some { vm with stack := s0 ++ [Value.Boolean (F64.lt a b)] }) ∧
    (vm.binary_cmp_op F64.ge = some { vm with stack := s0 ++ [Value.Boolean (F64.ge a b)] }) ∧
    (vm.binary_cmp_op F64.le = some { vm with stack := s0 ++ [Value.Boolean (F64.le a b)] }) ∧
    (∀ (w : VM) (s1 : List Value) (v u : Value) (op : F64 → F64 → F64),
        w.stack = s1 ++ [v, u] → isNumber v = false ∨ isNumber u = false →
        w.binary_num_op op = none) ∧
    (∀ (w : VM) (s1 : List Value) (v u : Value) (op : F64 → F64 → Bool),
        w.stack = s1 ++ [v, u] → isNumber v = false ∨ isNumber u = false →
        w.binary_cmp_op op = none) :=
  ⟨VM.binary_num_op_spec vm a b s0 F64.add hstack,
   VM.binary_num_op_spec vm a b s0 F64.sub hstack,
   VM.binary_num_op_spec vm a b s0 F64.mul hstack,
   VM.binary_num_op_spec vm a b s0 F64.div hstack,
   VM.binary_num_op_spec vm a b s0 F64.mod hstack,
   VM.binary_cmp_op_spec vm a b s0 F64.gt hstack,
   VM.binary_cmp_op_spec vm a b s0 F64.lt hstack,
   VM.binary_cmp_op_spec vm a b s0 F64.ge hstack,
   VM.binary_cmp_op_spec vm a b s0 F64.le hstack,
   fun w s1 v u op hw hvu => VM.binary_num_op_fatal w v u s1 op hw hvu,
   fun w s1 v u op hw hvu => VM.binary_cmp_op_fatal w v u s1 op hw hvu⟩

/-- Witness for C5: adding the two numbers on `c5vm`. -/
theorem C5_witness :
    c5vm.stack = [] ++ [Value.Number (.finite 1), Value.Number (.finite 2)] ∧
    c5vm.binary_num_op F64.add =
      some { c5vm with stack := [Value.Number (F64.add (.finite 1) (.finite 2))] } :=
  ⟨rfl, (C5_binary_op_semantics c5vm (.finite 1) (.finite 2) [] rfl).1⟩

/-- C6 counterexample: on `c6VM`, global slot 0 is defined and yet
`SetGlobal 0` is fatal (the operand stack is empty, so the `pop` inside
the handler panics); the same situation is reached by running `c6Prog`
from `VM::new`, whose execution dies.  This refutes the claim's "fatal
only if `globals[i]` is empty" direction. -/
theorem C6_counterexample :
    c6VM.set_global 0 = none ∧
    c6VM.globals[0]? = some (some (.Number (.finite 1))) ∧
    (VM.new c6Prog 1).run 10 = none := by
  refine ⟨by with_unfolding_all rfl, rfl, by with_unfolding_all rfl⟩

/-- C6 (amended): for an in-range global index, `GetGlobal` is fatal iff
the slot is empty; `SetGlobal` with a non-empty operand stack is fatal
iff the slot is empty (with an empty operand stack it is fatal even on a
defined slot, by stack underflow); when the slot is defined, `GetGlobal`
pushes a copy of the stored value and `SetGlobal` pops the top of the
stack and stores it into the slot. -/
theorem C6_globals_access (vm : VM) (i : Nat) (h : i < vm.globals.length) :
    (vm.get_global i = none ↔ vm.globals[i]? = some none) ∧
    (vm.stack ≠ [] → (vm.set_global i = none ↔ vm.globals[i]? = some none)) ∧
    (∀ v, vm.globals[i]? = some (some v) → vm.get_global i = some (vm.push v)) ∧
    (∀ v s0 w, vm.globals[i]? = some (some v) → vm.stack = s0 ++ [w] →
        vm.set_global i = some { vm with stack := s0, globals := vm.globals.set i (some w) }) := by
  have hi : ∃ o, vm.globals[i]? = some o := by
    rw [List.getElem?_eq_getElem h]
    exact ⟨_, rfl⟩
  obtain ⟨o, ho⟩ := hi
  refine ⟨?_, ?_, ?_, ?_⟩
  · cases o with
    | none => simp [VM.get_global, ho]
    | some v => simp [VM.get_global, ho, VM.push]
  · intro hne
    obtain (hnil | ⟨s0, w, hsw⟩) := vm.stack.eq_nil_or_concat
    · exact absurd hnil hne
    · rw [List.concat_eq_append] at hsw
      have h1 : vm.pop = some (w, { vm with stack := s0 }) := VM.pop_eq vm s0 w hsw
      cases o with
      | none => simp [VM.set_global, ho]
      | some v => simp [VM.set_global, ho, h1]
  · intro v hv
    simp [VM.get_global, hv]
  · intro v s0 w hv hsw
    have h1 : vm.pop = some (w, { vm with stack := s0 }) := VM.pop_eq vm s0 w hsw
    simp [VM.set_global, hv, h1]

/-- Witness for C6: on `c6wVM` slot 0 is defined, so `GetGlobal 0` pushes
a copy of the stored `Null`. -/
theorem C6_witness :
    0 < c6wVM.globals.length ∧
    c6wVM.get_global 0 = some (c6wVM.push .Null) :=
  ⟨by decide, (C6_globals_access c6wVM 0 (by decide)).2.2.1 .Null rfl⟩

/-- C7: `is_falsey(Null)` is `false` (Null is truthy under this engine's
convention) and `is_falsey(Boolean b)` is `!b` for both Booleans. -/
theorem C7_null_truthy_boolean_not :
    Value.is_falsey .Null = false ∧ ∀ b : Bool, Value.is_falsey (.Boolean b) = !b :=
  ⟨rfl, fun _ => rfl⟩

/-- C8: for every pair of values on top of the stack, `Equal` pushes
`Boolean r` and `NotEqual` pushes `Boolean (!r)` — the two instructions
produce complementary Booleans for every pair, cross-variant pairs and
NaN included. -/
theorem C8_equal_notequal_complement (vm : VM) (x y : Value) (s0 : List Value)
    (h : vm.stack = s0 ++ [x, y]) :
    ∃ r : Bool,
      vm.op_equal = some { vm with stack := s0 ++ [Value.Boolean r] } ∧
      vm.op_not_equal = some { vm with stack := s0 ++ [Value.Boolean (!r)] } := by
  obtain ⟨h1, h2⟩ := VM.pop2_eq vm s0 x y h
  refine ⟨valueEq y x, ?_, ?_⟩
  · simp only [VM.op_equal, h1, h2, VM.push_stack]
  · simp only [VM.op_not_equal, h1, h2, VM.push_stack]

/-- Witness for C8: the cross-variant pair on `c8vm` gets complementary
Booleans from `Equal` and `NotEqual`. -/
theorem C8_witness :
    c8vm.stack = [] ++ [Value.Null, Value.Boolean true] ∧
    (∃ r : Bool,
      c8vm.op_equal = some { c8vm with stack := [] ++ [Value.Boolean r] } ∧
      c8vm.op_not_equal = some { c8vm with stack := [] ++ [Value.Boolean (!r)] }) :=
  ⟨rfl, C8_equal_notequal_complement c8vm Value.Null (Value.Boolean true) [] rfl⟩

/-- C9: the globals table has exactly `global_count` slots at construction
and its length is preserved by every instruction handler (one dispatch
step) and hence by every run of the loop — no operation resizes it. -/
theorem C9_globals_length_invariant :
    (∀ (p : Program) (g : Nat), (VM.new p g).globals.length = g) ∧
    (∀ (vm vm' : VM), vm.step = some vm' → vm'.globals.length = vm.globals.length) ∧
    (∀ (n : Nat) (vm vm' : VM), vm.run n = some vm' →
        vm'.globals.length = vm.globals.length) :=
  ⟨fun p g => by simp [VM.new], VM.step_preserves_globals_length,
   VM.run_preserves_globals_length⟩

/-- Witness for C9: a concrete engine with three global slots, and one
concrete dispatch step preserving the table's length. -/
theorem C9_witness :
    (VM.new c9prog 3).globals.length = 3 ∧
    c9vm.step = some c9vmNext ∧
    c9vmNext.globals.length = c9vm.globals.length :=
  ⟨C9_globals_length_invariant.1 c9prog 3, by with_unfolding_all rfl,
   C9_globals_length_invariant.2.1 c9vm c9vmNext (by with_unfolding_all rfl)⟩

/-- C10: executing `Equal` on two copies of `Number NaN` pushes
`Boolean false` and `NotEqual` pushes `Boolean true`: the derived value
equality is not reflexive on NaN numbers. -/
theorem C10_nan_not_equal_itself :
    (VM.new nanEqProg 0).run 10 =
      some { frames := [⟨.mk nanEqProg 0, 3, 0⟩], stack := [.Boolean false], globals := [] } ∧
    (VM.new nanNeProg 0).run 10 =
      some { frames := [⟨.mk nanNeProg 0, 3, 0⟩], stack := [.Boolean true], globals := [] } := by
  refine ⟨by with_unfolding_all rfl, by with_unfolding_all rfl⟩

end Horst
